import Mathlib

/-!
Shallow embedding of the Canteen Item Tracker (src/app.py) and proofs about it.

Machine model conventions:
* Python `int` is modelled by `Int`, Python `float` by `ℚ` (exact rationals;
  no claim here probes binary-float artefacts).
* Streamlit session state is passed explicitly: each action takes the current
  item list (and, for add, the `next_id` counter) and returns the new state
  together with an `Effects` record listing the messages it showed
  (`st.success` / `st.warning` / `st.error`) and whether it called
  `save_items` (`update_inventory_and_save`).
* Python strings compare lexicographically by code point; `pyStrLt` models that
  directly on the character lists.
-/

namespace Canteen

/-- An inventory item, the record built by `add_item_action` in src/app.py:
`{"id": str(...), "name": ..., "quantity": int, "price": float, "threshold": int}`. -/
structure Item where
  id : String
  name : String
  quantity : Int
  price : ℚ
  threshold : Int
deriving DecidableEq, Repr

/-- A message shown to the operator via `st.success` / `st.warning` / `st.error`. -/
inductive Msg where
  | success (s : String)
  | warning (s : String)
  | error (s : String)
deriving DecidableEq, Repr

/-- What an action did besides transforming the item list: messages shown and
whether the collection was persisted via `update_inventory_and_save`. -/
structure Effects where
  msgs : List Msg
  saved : Bool
deriving DecidableEq, Repr

/-- `m` is an error-or-warning report (as opposed to a success notice). -/
def Msg.isErrorReport : Msg → Bool
  | Msg.success _ => false
  | Msg.warning _ => true
  | Msg.error _ => true

/-- Python string `<`: lexicographic comparison of the code-point sequences. -/
def pyCharsLt : List Char → List Char → Bool
  | [], [] => false
  | [], _ :: _ => true
  | _ :: _, [] => false
  | a :: as, b :: bs =>
    if a.val < b.val then true
    else if b.val < a.val then false
    else pyCharsLt as bs

/-- Python string `<=` on strings: `s <= t` iff not `t < s` (total order). -/
def pyStrLe (s t : String) : Bool :=
  !(pyCharsLt t.data s.data)

/-- The sort key comparator of `render_inventory_list` (src/app.py line 131):
`key=lambda x: (x['quantity'] <= x['threshold'], x['name'])`, tuples compared
lexicographically with `False < True`. `sortKeyLe a b` says the key of `a` is
less than or equal to the key of `b`. -/
def sortKeyLe (a b : Item) : Bool :=
  let la := decide (a.quantity ≤ a.threshold)
  let lb := decide (b.quantity ≤ b.threshold)
  if la = lb then pyStrLe a.name b.name
  else (!la && lb)

/-- Stable insertion of `x` into an already sorted list: `x` is placed before
the first element it compares `≤` to, hence before later equal-keyed elements
and after earlier ones — the stability contract of Python `sorted`. -/
def insertSorted (le : Item → Item → Bool) (x : Item) : List Item → List Item
  | [] => [x]
  | y :: ys => if le x y then x :: y :: ys else y :: insertSorted le x ys

/-- Stable sort modelling Python `sorted(items, key=...)`: any stable sort
computes the same list, and insertion sort is the simplest one. -/
def pySorted (le : Item → Item → Bool) : List Item → List Item
  | [] => []
  | x :: xs => insertSorted le x (pySorted le xs)

/-- `render_inventory_list` display order (src/app.py lines 130-131):
`sorted(items, key=lambda x: (x['quantity'] <= x['threshold'], x['name']))`. -/
def render_inventory_list_order (items : List Item) : List Item :=
  pySorted sortKeyLe items

/-- Python `round(x)` to an integer: round half to even (banker's rounding). -/
def roundHalfEven (q : ℚ) : ℤ :=
  let f := ⌊q⌋
  let r := q - (f : ℚ)
  if r < 1 / 2 then f
  else if 1 / 2 < r then f + 1
  else if f % 2 = 0 then f else f + 1

/-- Python `round(x, 2)`: round to the nearest multiple of `1/100`, half to
even (the float model is exact rationals, so this is decimal rounding). -/
def round2 (q : ℚ) : ℚ :=
  (roundHalfEven (q * 100) : ℚ) / 100

/-! ## Python `str` / `int` conversions

`add_item_action` stores `str(next_id)` and `get_next_id` applies `int(...)`
to stored ids, so the embedding needs decimal printing and Python `int(str)`
parsing. -/

/-- Python `str.strip` of whitespace as `int(...)` performs it: drop leading
and trailing whitespace characters. -/
def pyStripWs (l : List Char) : List Char :=
  ((l.dropWhile Char.isWhitespace).reverse.dropWhile Char.isWhitespace).reverse

/-- The numeric value of a decimal digit character, `none` on a non-digit. -/
def charToDigit? (c : Char) : Option Nat :=
  if c.isDigit then some (c.toNat - 48) else none

/-- Parse a list of characters as decimal digits (most significant first);
`none` if any character is not a digit. -/
def parseDigitChars : List Char → Option (List Nat)
  | [] => some []
  | c :: cs =>
    match charToDigit? c, parseDigitChars cs with
    | some d, some ds => some (d :: ds)
    | _, _ => none

/-- Value of a most-significant-first digit list. -/
def digitsVal (ds : List Nat) : Int :=
  (Nat.ofDigits 10 ds.reverse : Nat)

/-- Python `int(s)` on a string: strip whitespace, optional sign, then a
non-empty run of decimal digits; `none` models `ValueError`. (Underscore
digit grouping is not modelled; no id in this development contains one.) -/
def pyParseInt (s : String) : Option Int :=
  match pyStripWs s.data with
  | [] => none
  | c :: cs =>
    if c = '+' then
      match parseDigitChars cs with
      | some (d :: ds) => some (digitsVal (d :: ds))
      | _ => none
    else if c = '-' then
      match parseDigitChars cs with
      | some (d :: ds) => some (-(digitsVal (d :: ds)))
      | _ => none
    else
      match parseDigitChars (c :: cs) with
      | some ds => some (digitsVal ds)
      | none => none

/-- Little-endian decimal digits of `n`, with explicit fuel so that the
kernel can evaluate it (`Nat.digits` is well-founded recursion); `digitsRun`
agrees with `Nat.digits 10` whenever the fuel is at least `n`. -/
def digitsRun : Nat → Nat → List Nat
  | 0, _ => []
  | _ + 1, 0 => []
  | fuel + 1, n + 1 => (n + 1) % 10 :: digitsRun fuel ((n + 1) / 10)

/-- Little-endian decimal digits of `n`. -/
def pyDigits (n : Nat) : List Nat := digitsRun n n

/-- Python `str(n)` for a natural number: its decimal digits. -/
def pyStrNat (n : Nat) : String :=
  if n = 0 then "0" else String.mk ((pyDigits n).reverse.map Nat.digitChar)

/-- Python `str(i)` for an integer. -/
def pyStrInt (i : Int) : String :=
  if i < 0 then "-" ++ pyStrNat i.natAbs else pyStrNat i.toNat

/-! ## The Inventory Store operations of src/app.py -/

/-- `get_next_id`
loop body (src/app.py lines 42-47): `max_id` starts at `0`; each item whose id
parses as an int raises it to the max, ids raising `ValueError` are skipped. -/
def idMaxFold (items : List Item) : Int :=
  items.foldl
    (fun m it =>
      match pyParseInt it.id with
      | some k => max m k
      | none => m)
    0

/-- The body of the `max_id` fold, as a named function for the proofs. -/
def maxStep (m : ℤ) (it : Item) : ℤ :=
  match pyParseInt it.id with
  | some k => max m k
  | none => m

/-- `get_next_id` (src/app.py lines 37-48): `1` for an empty collection,
otherwise one more than the running max of the int-parsing ids. -/
def get_next_id (items : List Item) : Int :=
  if items.isEmpty then 1 else idMaxFold items + 1

/-- `add_item_action` (src/app.py lines 65-77): builds the new record with
`id = str(next_id)` and `price = round(price, 2)`, appends it, bumps
`next_id`, saves, and shows a success message. No validation happens here.
`newItemOf` is the dict literal of src/app.py lines 67-73. -/
def newItemOf (next_id : Int) (name : String) (quantity : Int) (price : ℚ)
    (threshold : Int) : Item :=
  { id := pyStrInt next_id
    name := name
    quantity := quantity
    price := round2 price
    threshold := threshold }

def add_item_action (items : List Item) (next_id : Int) (name : String)
    (quantity : Int) (price : ℚ) (threshold : Int) : List Item × Int × Effects :=
  (items ++ [newItemOf next_id name quantity price threshold], next_id + 1,
    { msgs := [Msg.success ("Item " ++ name ++ " added successfully!")], saved := true })

/-- `update_quantity_action` (src/app.py lines 79-91): find the first item
with the given id (`next(... if item['id'] == item_id ...)`) and add `change`
to its quantity if that stays nonnegative (then save); warn and change nothing
if it would go negative; do nothing at all when no item matches. -/
def update_quantity_action : List Item → String → Int → List Item × Effects
  | [], _, _ => ([], { msgs := [], saved := false })
  | item :: rest, item_id, change =>
    if item.id = item_id then
      if 0 ≤ item.quantity + change then
        ({ item with quantity := item.quantity + change } :: rest,
          { msgs := [], saved := true })
      else
        (item :: rest, { msgs := [Msg.warning ("Quantity cannot be negative.")], saved := false })
    else
      let r := update_quantity_action rest item_id change
      (item :: r.1, r.2)

/-- `delete_item_action` (src/app.py lines 97-101): keep the items whose id
differs, then save and show a success message — unconditionally, with no
confirmation step and no missing-id check. -/
def delete_item_action (items : List Item) (item_id : String) : List Item × Effects :=
  (items.filter (fun item => item.id ≠ item_id),
    { msgs := [Msg.success ("Item deleted.")], saved := true })

/-- The save path of `render_edit_form` (src/app.py lines 243-251): overwrite
the fields of the first item whose id matches (`next(item for item ...)`),
with `price = round(new_price, 2)`, then save. The id is not changed. When no
item matches, the form is not shown (lines 217-221), so nothing happens. -/
def edit_item_action : List Item → String → String → Int → ℚ → Int → List Item × Effects
  | [], _, _, _, _, _ => ([], { msgs := [], saved := false })
  | item :: rest, item_id, new_name, new_quantity, new_price, new_threshold =>
    if item.id = item_id then
      ({ item with
          name := new_name,
          quantity := new_quantity,
          price := round2 new_price,
          threshold := new_threshold } :: rest,
        { msgs := [], saved := true })
    else
      let r := edit_item_action rest item_id new_name new_quantity new_price new_threshold
      (item :: r.1, r.2)

/-- The submit path of `render_add_item_form` (src/app.py lines 116-120):
`if name: add_item_action(...) else: st.error(...)`. The number widgets
(lines 110-112) clamp quantity to `>= 0`, price to `>= 0.0` and threshold to
`>= 1`, but no Python-side validation of them exists. -/
def render_add_item_form_submit (items : List Item) (next_id : Int) (name : String)
    (quantity : Int) (price : ℚ) (threshold : Int) : List Item × Int × Effects :=
  if name ≠ "" then add_item_action items next_id name quantity price threshold
  else (items, next_id, { msgs := [Msg.error ("Item Name is required.")], saved := false })

/-! ## Persistence (src/app.py lines 12-35)

`load_items` reads `inventory.json` and coerces the numeric fields of every
record with `int(...)` / `float(...)`; `save_items` writes the records back.
The file system is abstracted to a `FileState`: absent, unreadable (an
`IOError` or `json.JSONDecodeError`, both caught), or a parsed list of JSON
records. JSON scalar values suffice: every record this program writes holds
only strings, ints and floats. -/

/-- A JSON scalar value as `json.load` produces it (integer literals load as
Python `int`, other numbers as `float`). -/
inductive JVal where
  | jnull
  | jbool (b : Bool)
  | jint (n : Int)
  | jfloat (q : ℚ)
  | jstr (s : String)
deriving DecidableEq, Repr

/-- A JSON object, i.e. a Python dict with string keys: association list,
keys unique as `json.load` yields them. -/
abbrev JRecord := List (String × JVal)

/-- Python `d.get(k, dflt)`: the value at the first matching key, else the
default. -/
def recGet (r : JRecord) (k : String) (dflt : JVal) : JVal :=
  match r with
  | [] => dflt
  | (k0, v) :: rest => if k0 = k then v else recGet rest k dflt

/-- Python `d[k] = v` on a dict: replace the value at the key if present,
otherwise append the binding. -/
def recSet (r : JRecord) (k : String) (v : JVal) : JRecord :=
  match r with
  | [] => [(k, v)]
  | (k0, v0) :: rest => if k0 = k then (k0, v) :: rest else (k0, v0) :: recSet rest k v

/-- Python `int(x)` on a loaded JSON value: ints pass through, floats
truncate toward zero, bools become 0/1, strings parse strictly, `null`
raises. `none` models the raised `ValueError`/`TypeError` — which
`load_items` does NOT catch. -/
def pyIntOf : JVal → Option Int
  | JVal.jint n => some n
  | JVal.jfloat q => some (if 0 ≤ q then ⌊q⌋ else ⌈q⌉)
  | JVal.jbool b => some (if b then 1 else 0)
  | JVal.jstr s => pyParseInt s
  | JVal.jnull => none

/-- Decimal digit characters parsed as `ds`, and an optional fraction part. -/
def parseFracChars : List Char → Option ℚ
  | [] => some 0
  | l =>
    match parseDigitChars l with
    | some ds => some ((digitsVal ds : ℚ) / (10 ^ ds.length : ℚ))
    | none => none

/-- Python `float(s)` on a string, for the forms this program can meet:
optional sign, digits with an optional decimal point (`"3"`, `"3.5"`,
`".5"`, `"3."`). Exponents and `inf`/`nan` are not modelled; no claim
exercises them. `none` models `ValueError`. -/
def pyParseFloat (s : String) : Option ℚ :=
  let core : List Char → Option ℚ := fun l =>
    match l.span (fun c => c ≠ '.') with
    | (intPart, fracPart) =>
      match fracPart with
      | [] =>
        match parseDigitChars intPart with
        | some (d :: ds) => some (digitsVal (d :: ds) : ℚ)
        | _ => none
      | _ :: frac =>
        if intPart = [] ∧ frac = [] then none
        else
          match parseDigitChars intPart, parseFracChars frac with
          | some ds, some f => some ((digitsVal ds : ℚ) + f)
          | _, _ => none
  match pyStripWs s.data with
  | [] => none
  | c :: cs =>
    if c = '+' then core cs
    else if c = '-' then (core cs).map Neg.neg
    else core (c :: cs)

/-- Python `float(x)` on a loaded JSON value. -/
def pyFloatOf : JVal → Option ℚ
  | JVal.jint n => some (n : ℚ)
  | JVal.jfloat q => some q
  | JVal.jbool b => some (if b then 1 else 0)
  | JVal.jstr s => pyParseFloat s
  | JVal.jnull => none

/-- The body of the coercion loop of `load_items` (src/app.py lines 20-23):
`item['quantity'] = int(item.get('quantity', 0))`, `item['price'] =
float(item.get('price', 0.0))`, `item['threshold'] =
int(item.get('threshold', 1))`. `none` models an uncaught conversion error. -/
def coerceRecord (r : JRecord) : Option JRecord :=
  match pyIntOf (recGet r "quantity" (JVal.jint 0)) with
  | none => none
  | some q =>
    match pyFloatOf (recGet r "price" (JVal.jfloat 0)) with
    | none => none
    | some p =>
      match pyIntOf (recGet r "threshold" (JVal.jint 1)) with
      | none => none
      | some t =>
        some (recSet (recSet (recSet r "quantity" (JVal.jint q))
          "price" (JVal.jfloat p)) "threshold" (JVal.jint t))

/-- The coercion loop of `load_items` over the whole record list; `none` when
any record raises. -/
def coerceAll : List JRecord → Option (List JRecord)
  | [] => some []
  | r :: rs =>
    match coerceRecord r with
    | none => none
    | some r0 =>
      match coerceAll rs with
      | none => none
      | some rs0 => some (r0 :: rs0)

/-- The state of `inventory.json` as `load_items` can observe it. -/
inductive FileState where
  | absent
  | unreadable
  | parsed (data : List JRecord)

/-- `load_items` (src/app.py lines 12-27): `[]` when the file is absent; `[]`
(with an error message) when opening or JSON-decoding fails; otherwise the
parsed records with numeric fields coerced — where a coercion failure is an
uncaught exception (`none`), since only `IOError` and `JSONDecodeError` are
caught. -/
def load_items : FileState → Option (List JRecord)
  | FileState.absent => some []
  | FileState.unreadable => some []
  | FileState.parsed data => coerceAll data

/-- The JSON record `json.dump` writes for an in-memory item. -/
def itemToRecord (it : Item) : JRecord :=
  [("id", JVal.jstr it.id), ("name", JVal.jstr it.name),
   ("quantity", JVal.jint it.quantity), ("price", JVal.jfloat it.price),
   ("threshold", JVal.jint it.threshold)]

/-- `save_items` (src/app.py lines 29-35) on the happy path: the file now
holds exactly the dumped records (`json.dump` / `json.load` round-trip text
faithfully at this level of abstraction). -/
def save_items (items : List Item) : FileState :=
  FileState.parsed (items.map itemToRecord)

/-- Reading a loaded record back as an `Item`, the way the app accesses it
(`item['id']`, `item['name']`, ...): `none` on a missing or mistyped field. -/
def recordToItem? (r : JRecord) : Option Item :=
  match recGet r "id" JVal.jnull, recGet r "name" JVal.jnull,
      recGet r "quantity" JVal.jnull, recGet r "price" JVal.jnull,
      recGet r "threshold" JVal.jnull with
  | JVal.jstr i, JVal.jstr n, JVal.jint q, JVal.jfloat p, JVal.jint t =>
    some { id := i, name := n, quantity := q, price := p, threshold := t }
  | _, _, _, _, _ => none

/-- Item A of the spec example: qty 5, threshold 10, name Rice (low stock). -/
def exampleA : Item := { id := "1", name := "Rice", quantity := 5, price := 10, threshold := 10 }

/-- Item B of the spec example: qty 20, threshold 5, name Juice (not low stock). -/
def exampleB : Item := { id := "2", name := "Juice", quantity := 20, price := 5, threshold := 5 }

/-- Item C of the spec example: qty 3, threshold 5, name Apple (low stock). -/
def exampleC : Item := { id := "3", name := "Apple", quantity := 3, price := 2, threshold := 5 }

/-! ## Data-model invariants (spec section 3) -/

/-- The spec's data-model invariants: ids pairwise distinct, quantities
nonnegative, thresholds at least 1, prices stored 2-decimal-rounded. -/
def Wf (items : List Item) : Prop :=
  items.Pairwise (fun a b => a.id ≠ b.id) ∧
  ∀ it ∈ items, 0 ≤ it.quantity ∧ 1 ≤ it.threshold ∧ round2 it.price = it.price

instance : DecidablePred Wf := fun _ => by
  unfold Wf
  infer_instance

/-- The session invariant tying `st.session_state.next_id` to the items:
every int-parsing id is below the counter. `get_next_id` establishes it and
`add_item_action` maintains it. -/
def FreshId (items : List Item) (next_id : Int) : Prop :=
  ∀ it ∈ items, ∀ k, pyParseInt it.id = some k → k < next_id

/-! ## Helper lemmas: rounding -/

/-- Rounding an integer is the identity. -/
theorem roundHalfEven_intCast (z : ℤ) : roundHalfEven (z : ℚ) = z := by
  unfold roundHalfEven
  rw [Int.floor_intCast]
  norm_num

/-- `round(., 2)` is idempotent: a stored price is already rounded. -/
theorem round2_idem (q : ℚ) : round2 (round2 q) = round2 q := by
  unfold round2
  rw [div_mul_cancel₀ _ (by norm_num : (100 : ℚ) ≠ 0), roundHalfEven_intCast]

/-! ## Helper lemmas: decimal printing parses back -/

theorem digitsRun_eq_digits : ∀ fuel n, n ≤ fuel → digitsRun fuel n = Nat.digits 10 n := by
  intro fuel
  induction fuel with
  | zero =>
    intro n hn
    have : n = 0 := Nat.le_zero.mp hn
    subst this
    simp [digitsRun]
  | succ f ih =>
    intro n hn
    match n with
    | 0 => simp [digitsRun]
    | m + 1 =>
      rw [Nat.digits_def' (by norm_num : (1 : ℕ) < 10) (Nat.succ_pos m)]
      show (m + 1) % 10 :: digitsRun f ((m + 1) / 10) = (m + 1) % 10 :: Nat.digits 10 ((m + 1) / 10)
      have h1 : (m + 1) / 10 < m + 1 := Nat.div_lt_self (Nat.succ_pos m) (by norm_num)
      rw [ih ((m + 1) / 10) (by omega)]

theorem pyDigits_eq_digits (n : Nat) : pyDigits n = Nat.digits 10 n :=
  digitsRun_eq_digits n n le_rfl

theorem charToDigit?_digitChar : ∀ d, d < 10 → charToDigit? (Nat.digitChar d) = some d := by
  decide

theorem digitChar_not_ws : ∀ d, d < 10 → (Nat.digitChar d).isWhitespace = false := by
  decide

theorem digitChar_not_sign : ∀ d, d < 10 → Nat.digitChar d ≠ '+' ∧ Nat.digitChar d ≠ '-' := by
  decide

theorem parseDigitChars_map_digitChar :
    ∀ ds : List Nat, (∀ d ∈ ds, d < 10) → parseDigitChars (ds.map Nat.digitChar) = some ds := by
  intro ds h
  induction ds with
  | nil => rfl
  | cons d rest ih =>
    have hd : d < 10 := h d (List.mem_cons_self d rest)
    have hrest : ∀ x ∈ rest, x < 10 := fun x hx => h x (List.mem_cons_of_mem d hx)
    simp only [List.map_cons, parseDigitChars, charToDigit?_digitChar d hd, ih hrest]

theorem dropWhile_of_all_neg {p : Char → Bool} :
    ∀ l : List Char, (∀ c ∈ l, p c = false) → l.dropWhile p = l := by
  intro l h
  cases l with
  | nil => rfl
  | cons c cs =>
    rw [List.dropWhile_cons, h c (List.mem_cons_self c cs)]
    simp

theorem pyStripWs_of_no_ws (l : List Char) (h : ∀ c ∈ l, c.isWhitespace = false) :
    pyStripWs l = l := by
  unfold pyStripWs
  rw [dropWhile_of_all_neg l h,
    dropWhile_of_all_neg l.reverse (fun c hc => h c (List.mem_reverse.mp hc)),
    List.reverse_reverse]

/-- The decimal print of a natural number parses back to itself: the heart of
why `get_next_id` never collides with a stored id. -/
theorem pyParseInt_pyStrNat (n : Nat) : pyParseInt (pyStrNat n) = some (n : Int) := by
  by_cases h0 : n = 0
  · subst h0
    decide
  · have hdig : ∀ d ∈ (pyDigits n).reverse, d < 10 := by
      intro d hd
      exact Nat.digits_lt_base (by norm_num)
        (by rw [← pyDigits_eq_digits]; exact List.mem_reverse.mp hd)
    set chars : List Char := (pyDigits n).reverse.map Nat.digitChar with hchars
    have hnws : ∀ c ∈ chars, c.isWhitespace = false := by
      intro c hc
      obtain ⟨d, hd, rfl⟩ := List.mem_map.mp hc
      exact digitChar_not_ws d (hdig d hd)
    have hne : chars ≠ [] := by
      rw [hchars]
      simp only [ne_eq, List.map_eq_nil_iff, List.reverse_eq_nil_iff]
      rw [pyDigits_eq_digits]
      exact Nat.digits_ne_nil_iff_ne_zero.mpr h0
    obtain ⟨c, cs, hcons⟩ : ∃ c cs, chars = c :: cs := by
      cases hl : chars with
      | nil => exact absurd hl hne
      | cons c cs => exact ⟨c, cs, rfl⟩
    have hcmem : c ∈ chars := by
      rw [hcons]
      exact List.mem_cons_self c cs
    obtain ⟨d0, hd0, hcd⟩ := List.mem_map.mp hcmem
    have hsign := digitChar_not_sign d0 (hdig d0 hd0)
    have hparse : parseDigitChars chars = some (pyDigits n).reverse :=
      parseDigitChars_map_digitChar _ hdig
    have hstr : (pyStrNat n).data = chars := by
      unfold pyStrNat
      rw [if_neg h0]
    unfold pyParseInt
    rw [hstr, pyStripWs_of_no_ws chars hnws, hcons, ← hcd]
    simp only [hsign.1, hsign.2, if_false, ite_false]
    rw [show d0.digitChar :: cs = chars by rw [hcons, hcd], hparse]
    show some ((Nat.ofDigits 10 (pyDigits n).reverse.reverse : ℕ) : ℤ) = some (n : ℤ)
    rw [List.reverse_reverse, pyDigits_eq_digits, Nat.ofDigits_digits]

/-- `str(i)` parses back to `i` for nonnegative `i`. -/
theorem pyParseInt_pyStrInt (i : ℤ) (h : 0 ≤ i) : pyParseInt (pyStrInt i) = some i := by
  unfold pyStrInt
  rw [if_neg (by omega : ¬i < 0), pyParseInt_pyStrNat, Int.toNat_of_nonneg h]

/-! ## Helper lemmas: `get_next_id` -/

theorem idMaxFold_eq (items : List Item) : idMaxFold items = items.foldl maxStep 0 := rfl

theorem le_foldl_maxStep (items : List Item) : ∀ a : ℤ, a ≤ items.foldl maxStep a := by
  induction items with
  | nil => intro a; exact le_refl a
  | cons it rest ih =>
    intro a
    refine le_trans ?_ (ih (maxStep a it))
    unfold maxStep
    cases pyParseInt it.id with
    | none => exact le_refl a
    | some k => exact le_max_left a k

theorem parse_le_foldl_maxStep (items : List Item) :
    ∀ a : ℤ, ∀ it ∈ items, ∀ k, pyParseInt it.id = some k → k ≤ items.foldl maxStep a := by
  induction items with
  | nil => intro a it hit; exact absurd hit (List.not_mem_nil it)
  | cons x rest ih =>
    intro a it hit k hk
    rcases List.mem_cons.mp hit with h | h
    · subst h
      refine le_trans ?_ (le_foldl_maxStep rest (maxStep a it))
      unfold maxStep
      rw [hk]
      exact le_max_right a k
    · exact ih (maxStep a x) it h k hk

theorem idMaxFold_nonneg (items : List Item) : 0 ≤ idMaxFold items := by
  rw [idMaxFold_eq]
  exact le_foldl_maxStep items 0

theorem get_next_id_pos (items : List Item) : 1 ≤ get_next_id items := by
  unfold get_next_id
  by_cases h : items.isEmpty
  · rw [if_pos h]
  · rw [if_neg h]
    have := idMaxFold_nonneg items
    omega

/-- `get_next_id` dominates every int-parsing stored id: the session invariant
`FreshId` holds when the counter is initialised (src/app.py lines 56-57). -/
theorem freshId_get_next_id (items : List Item) : FreshId items (get_next_id items) := by
  intro it hit k hk
  unfold get_next_id
  have hne : items.isEmpty = false := by
    cases items with
    | nil => exact absurd hit (List.not_mem_nil it)
    | cons x xs => rfl
  rw [hne]
  simp only [Bool.false_eq_true, if_false, ite_false]
  have : k ≤ idMaxFold items := by
    rw [idMaxFold_eq]
    exact parse_le_foldl_maxStep items 0 it hit k hk
  omega

/-- The id `add_item_action` will assign differs from every stored id. -/
theorem get_next_id_fresh (items : List Item) :
    ∀ it ∈ items, it.id ≠ pyStrInt (get_next_id items) := by
  intro it hit heq
  have hpos : 1 ≤ get_next_id items := get_next_id_pos items
  have hparse : pyParseInt it.id = some (get_next_id items) := by
    rw [heq]
    exact pyParseInt_pyStrInt _ (by omega)
  have := freshId_get_next_id items it hit (get_next_id items) hparse
  omega

/-! ## Helper lemmas: `update_quantity_action` -/

theorem update_quantity_notfound (items : List Item) (item_id : String) (change : Int)
    (h : ∀ it ∈ items, it.id ≠ item_id) :
    update_quantity_action items item_id change = (items, { msgs := [], saved := false }) := by
  induction items with
  | nil => rfl
  | cons x rest ih =>
    have hx : x.id ≠ item_id := h x (List.mem_cons_self x rest)
    have hrest := ih fun it hit => h it (List.mem_cons_of_mem x hit)
    unfold update_quantity_action
    rw [if_neg hx, hrest]

theorem update_quantity_blocked (pre post : List Item) (item : Item) (item_id : String)
    (change : Int) (hpre : ∀ x ∈ pre, x.id ≠ item_id) (hid : item.id = item_id)
    (hneg : item.quantity + change < 0) :
    update_quantity_action (pre ++ item :: post) item_id change =
      (pre ++ item :: post,
        { msgs := [Msg.warning ("Quantity cannot be negative.")], saved := false }) := by
  induction pre with
  | nil =>
    show update_quantity_action (item :: post) item_id change = _
    unfold update_quantity_action
    rw [if_pos hid, if_neg (by omega : ¬0 ≤ item.quantity + change)]
    rfl
  | cons x rest ih =>
    have hx : x.id ≠ item_id := hpre x (List.mem_cons_self x rest)
    have hrest := ih fun y hy => hpre y (List.mem_cons_of_mem x hy)
    show update_quantity_action (x :: (rest ++ item :: post)) item_id change = _
    unfold update_quantity_action
    rw [if_neg hx, hrest]
    rfl

theorem update_quantity_applies (pre post : List Item) (item : Item) (item_id : String)
    (change : Int) (hpre : ∀ x ∈ pre, x.id ≠ item_id) (hid : item.id = item_id)
    (hok : 0 ≤ item.quantity + change) :
    update_quantity_action (pre ++ item :: post) item_id change =
      (pre ++ { item with quantity := item.quantity + change } :: post,
        { msgs := [], saved := true }) := by
  induction pre with
  | nil =>
    show update_quantity_action (item :: post) item_id change = _
    unfold update_quantity_action
    rw [if_pos hid, if_pos hok]
    rfl
  | cons x rest ih =>
    have hx : x.id ≠ item_id := hpre x (List.mem_cons_self x rest)
    have hrest := ih fun y hy => hpre y (List.mem_cons_of_mem x hy)
    show update_quantity_action (x :: (rest ++ item :: post)) item_id change = _
    unfold update_quantity_action
    rw [if_neg hx, hrest]
    rfl

/-- The updated list carries the same ids in the same positions. -/
theorem update_quantity_map_id (items : List Item) (item_id : String) (change : Int) :
    (update_quantity_action items item_id change).1.map Item.id = items.map Item.id := by
  induction items with
  | nil => rfl
  | cons x rest ih =>
    unfold update_quantity_action
    by_cases hx : x.id = item_id
    · rw [if_pos hx]
      by_cases hq : 0 ≤ x.quantity + change
      · rw [if_pos hq]
        rfl
      · rw [if_neg hq]
    · rw [if_neg hx]
      show (x :: (update_quantity_action rest item_id change).1).map Item.id = _
      rw [List.map_cons, List.map_cons, ih]

/-! ## Helper lemmas: `delete_item_action` and `add_item_action` -/

theorem delete_result_no_id (items : List Item) (item_id : String) :
    ∀ x ∈ (delete_item_action items item_id).1, x.id ≠ item_id := by
  intro x hx
  have := (List.mem_filter.mp hx).2
  simpa using this

theorem delete_keeps_others (items : List Item) (item_id : String) :
    ∀ x ∈ items, x.id ≠ item_id → x ∈ (delete_item_action items item_id).1 := by
  intro x hx hne
  exact List.mem_filter.mpr ⟨hx, by simpa using hne⟩

theorem delete_sublist (items : List Item) (item_id : String) :
    (delete_item_action items item_id).1.Sublist items :=
  List.filter_sublist items

theorem delete_noop_of_absent (items : List Item) (item_id : String)
    (h : ∀ x ∈ items, x.id ≠ item_id) :
    (delete_item_action items item_id).1 = items :=
  List.filter_eq_self.mpr fun a ha => by simpa using h a ha

theorem delete_effects (items : List Item) (item_id : String) :
    (delete_item_action items item_id).2 =
      { msgs := [Msg.success ("Item deleted.")], saved := true } := rfl

/-- `find?` skips a prefix that fails the predicate. -/
theorem find?_append_of_prefix_none {p : Item → Bool} (l₁ l₂ : List Item)
    (h : ∀ x ∈ l₁, p x = false) : (l₁ ++ l₂).find? p = l₂.find? p := by
  rw [List.find?_append, List.find?_eq_none.mpr (fun x hx => by simp [h x hx]), Option.none_or]

theorem add_item_result (items : List Item) (next_id : Int) (name : String)
    (quantity : Int) (price : ℚ) (threshold : Int) :
    add_item_action items next_id name quantity price threshold =
      (items ++ [newItemOf next_id name quantity price threshold],
        next_id + 1,
        { msgs := [Msg.success ("Item " ++ name ++ " added successfully!")],
          saved := true }) := rfl

/-! ## Helper lemmas: persistence -/

theorem recGet_of_absent (r : JRecord) (k : String) (dflt : JVal)
    (h : ∀ kv ∈ r, kv.1 ≠ k) : recGet r k dflt = dflt := by
  induction r with
  | nil => rfl
  | cons kv rest ih =>
    unfold recGet
    rw [if_neg (h kv (List.mem_cons_self kv rest))]
    exact ih fun x hx => h x (List.mem_cons_of_mem kv hx)

/-- Coercing the record written for an in-memory item changes nothing: all
three numeric fields are already of the right type, and writing them back
stores the same value. -/
theorem coerceRecord_itemToRecord (it : Item) :
    coerceRecord (itemToRecord it) = some (itemToRecord it) := rfl

theorem coerceAll_map_itemToRecord (items : List Item) :
    coerceAll (items.map itemToRecord) = some (items.map itemToRecord) := by
  induction items with
  | nil => rfl
  | cons it rest ih =>
    show coerceAll (itemToRecord it :: rest.map itemToRecord) = _
    unfold coerceAll
    rw [coerceRecord_itemToRecord, ih]
    rfl

theorem recordToItem?_itemToRecord (it : Item) :
    recordToItem? (itemToRecord it) = some it := rfl

/-! ## Helper lemmas: invariant preservation -/

theorem update_fields_ok (items : List Item) (item_id : String) (change : Int)
    (h : ∀ it ∈ items, 0 ≤ it.quantity ∧ 1 ≤ it.threshold ∧ round2 it.price = it.price) :
    ∀ it ∈ (update_quantity_action items item_id change).1,
      0 ≤ it.quantity ∧ 1 ≤ it.threshold ∧ round2 it.price = it.price := by
  induction items with
  | nil => intro it hit; exact absurd hit (List.not_mem_nil it)
  | cons x rest ih =>
    have hx := h x (List.mem_cons_self x rest)
    have hrest := ih fun it hit => h it (List.mem_cons_of_mem x hit)
    intro it hit
    unfold update_quantity_action at hit
    by_cases hid : x.id = item_id
    · rw [if_pos hid] at hit
      by_cases hq : 0 ≤ x.quantity + change
      · rw [if_pos hq] at hit
        rcases List.mem_cons.mp hit with h1 | h1
        · subst h1
          exact ⟨hq, hx.2.1, hx.2.2⟩
        · exact h it (List.mem_cons_of_mem x h1)
      · rw [if_neg hq] at hit
        exact h it hit
    · rw [if_neg hid] at hit
      change it ∈ x :: (update_quantity_action rest item_id change).1 at hit
      rcases List.mem_cons.mp hit with h1 | h1
      · subst h1
        exact hx
      · exact hrest it h1

theorem wf_update (items : List Item) (item_id : String) (change : Int) (h : Wf items) :
    Wf (update_quantity_action items item_id change).1 := by
  obtain ⟨hpair, hfields⟩ := h
  refine ⟨?_, update_fields_ok items item_id change hfields⟩
  have hmap : ((update_quantity_action items item_id change).1.map Item.id).Pairwise
      (fun a b => a ≠ b) := by
    rw [update_quantity_map_id]
    exact List.pairwise_map.mpr hpair
  exact List.pairwise_map.mp hmap

theorem edit_map_id (items : List Item) (item_id new_name : String) (new_quantity : Int)
    (new_price : ℚ) (new_threshold : Int) :
    (edit_item_action items item_id new_name new_quantity new_price new_threshold).1.map
      Item.id = items.map Item.id := by
  induction items with
  | nil => rfl
  | cons x rest ih =>
    unfold edit_item_action
    by_cases hx : x.id = item_id
    · rw [if_pos hx]
      rfl
    · rw [if_neg hx]
      show (x :: (edit_item_action rest item_id new_name new_quantity new_price
        new_threshold).1).map Item.id = _
      rw [List.map_cons, List.map_cons, ih]

theorem edit_fields_ok (items : List Item) (item_id new_name : String) (new_quantity : Int)
    (new_price : ℚ) (new_threshold : Int) (hq : 0 ≤ new_quantity) (ht : 1 ≤ new_threshold)
    (h : ∀ it ∈ items, 0 ≤ it.quantity ∧ 1 ≤ it.threshold ∧ round2 it.price = it.price) :
    ∀ it ∈ (edit_item_action items item_id new_name new_quantity new_price new_threshold).1,
      0 ≤ it.quantity ∧ 1 ≤ it.threshold ∧ round2 it.price = it.price := by
  induction items with
  | nil => intro it hit; exact absurd hit (List.not_mem_nil it)
  | cons x rest ih =>
    have hx := h x (List.mem_cons_self x rest)
    have hrest := ih fun it hit => h it (List.mem_cons_of_mem x hit)
    intro it hit
    unfold edit_item_action at hit
    by_cases hid : x.id = item_id
    · rw [if_pos hid] at hit
      rcases List.mem_cons.mp hit with h1 | h1
      · subst h1
        exact ⟨hq, ht, round2_idem new_price⟩
      · exact h it (List.mem_cons_of_mem x h1)
    · rw [if_neg hid] at hit
      change it ∈ x :: (edit_item_action rest item_id new_name new_quantity new_price
        new_threshold).1 at hit
      rcases List.mem_cons.mp hit with h1 | h1
      · subst h1
        exact hx
      · exact hrest it h1

theorem wf_edit (items : List Item) (item_id new_name : String) (new_quantity : Int)
    (new_price : ℚ) (new_threshold : Int) (hq : 0 ≤ new_quantity) (ht : 1 ≤ new_threshold)
    (h : Wf items) :
    Wf (edit_item_action items item_id new_name new_quantity new_price new_threshold).1 := by
  obtain ⟨hpair, hfields⟩ := h
  refine ⟨?_, edit_fields_ok items item_id new_name new_quantity new_price new_threshold
    hq ht hfields⟩
  have hmap : ((edit_item_action items item_id new_name new_quantity new_price
      new_threshold).1.map Item.id).Pairwise (fun a b => a ≠ b) := by
    rw [edit_map_id]
    exact List.pairwise_map.mpr hpair
  exact List.pairwise_map.mp hmap

theorem wf_delete (items : List Item) (item_id : String) (h : Wf items) :
    Wf (delete_item_action items item_id).1 := by
  obtain ⟨hpair, hfields⟩ := h
  exact ⟨hpair.sublist (delete_sublist items item_id),
    fun it hit => hfields it ((delete_sublist items item_id).mem hit)⟩

theorem wf_add (items : List Item) (next_id : Int) (name : String) (quantity : Int)
    (price : ℚ) (threshold : Int) (hwf : Wf items) (hfresh : FreshId items next_id)
    (hnid : 1 ≤ next_id) (hq : 0 ≤ quantity) (ht : 1 ≤ threshold) :
    Wf (add_item_action items next_id name quantity price threshold).1 := by
  obtain ⟨hpair, hfields⟩ := hwf
  show Wf (items ++ [newItemOf next_id name quantity price threshold])
  constructor
  · rw [List.pairwise_append]
    refine ⟨hpair, List.pairwise_singleton _ _, ?_⟩
    intro a ha b hb
    have hb1 : b = newItemOf next_id name quantity price threshold := List.mem_singleton.mp hb
    intro heq
    have hpa : pyParseInt a.id = some next_id := by
      rw [heq, hb1]
      exact pyParseInt_pyStrInt next_id (by omega)
    have := hfresh a ha next_id hpa
    omega
  · intro it hit
    rcases List.mem_append.mp hit with h1 | h1
    · exact hfields it h1
    · have heq : it = newItemOf next_id name quantity price threshold := List.mem_singleton.mp h1
      subst heq
      exact ⟨hq, ht, round2_idem price⟩

theorem freshId_add (items : List Item) (next_id : Int) (name : String) (quantity : Int)
    (price : ℚ) (threshold : Int) (hfresh : FreshId items next_id) (hnid : 1 ≤ next_id) :
    FreshId (add_item_action items next_id name quantity price threshold).1 (next_id + 1) := by
  intro it hit k hk
  rcases List.mem_append.mp hit with h1 | h1
  · have := hfresh it h1 k hk
    omega
  · have heq : it = newItemOf next_id name quantity price threshold := List.mem_singleton.mp h1
    subst heq
    have hpp : pyParseInt (pyStrInt next_id) = some next_id :=
      pyParseInt_pyStrInt next_id (by omega)
    have hk2 : pyParseInt (pyStrInt next_id) = some k := hk
    rw [hpp] at hk2
    have : k = next_id := by injection hk2; omega
    omega

/-! ## Shared concrete facts for witnesses -/

theorem wf_examples : Wf [exampleA, exampleB] := by
  refine ⟨by decide, ?_⟩
  intro it hit
  fin_cases hit <;>
    exact ⟨by decide, by decide,
      by norm_num [round2, roundHalfEven, Rat.floor_def, exampleA, exampleB]⟩

theorem freshId_examples : FreshId [exampleA, exampleB] 3 := by
  intro it hit k hk
  rcases List.mem_cons.mp hit with h | h
  · subst h
    rw [show pyParseInt exampleA.id = some 1 from rfl] at hk
    injection hk with h2
    omega
  · rcases List.mem_cons.mp h with h | h
    · subst h
      rw [show pyParseInt exampleB.id = some 2 from rfl] at hk
      injection hk with h2
      omega
    · exact absurd h (List.not_mem_nil it)

/-! ## The claims -/

/-- C1: the spec says `list()` puts low-stock items first (expected `C, A, B`
on the spec's example). The code comment (src/app.py line 130) states the same
intent, but the comparator sorts the boolean key ascending with `False < True`,
so low-stock items come LAST: the code yields `B, C, A`. Evaluating the
embedded sort at the spec's own example exhibits the bug. -/
theorem C1_list_order_eval :
    render_inventory_list_order [exampleA, exampleB, exampleC] =
      [exampleB, exampleC, exampleA] := by
  decide

/-- C2 counterexample: the claim says delete removes an item only after an
explicit affirmative confirmation. `delete_item_action` takes no confirmation
input at all: invoked with just the id (exactly how the Del button calls it,
src/app.py lines 182-184), it removes the item and reports success. There is
no declined path whose behaviour could leave the collection unchanged. -/
theorem C2_delete_needs_no_confirmation_cex :
    (delete_item_action [exampleA] "1").1 = [] ∧
    (delete_item_action [exampleA] "1").2 =
      { msgs := [Msg.success ("Item deleted.")], saved := true } :=
  ⟨rfl, rfl⟩

/-- C2 amended: for every collection and id, a single invocation of delete
immediately removes every item with that id (in particular a present one),
keeps all the others in order, persists, and reports success — no
confirmation is requested or required. -/
theorem C2_delete_removes_unconditionally (items : List Item) (item_id : String) :
    (∀ x ∈ (delete_item_action items item_id).1, x.id ≠ item_id) ∧
    (∀ x ∈ items, x.id ≠ item_id → x ∈ (delete_item_action items item_id).1) ∧
    (delete_item_action items item_id).1.Sublist items ∧
    (delete_item_action items item_id).2 =
      { msgs := [Msg.success ("Item deleted.")], saved := true } :=
  ⟨delete_result_no_id items item_id, delete_keeps_others items item_id,
    delete_sublist items item_id, delete_effects items item_id⟩

theorem C2_delete_removes_unconditionally_witness :
    exampleA ∈ (delete_item_action [exampleA, exampleB] "2").1 ∧
    (delete_item_action [exampleA, exampleB] "2").2 =
      { msgs := [Msg.success ("Item deleted.")], saved := true } :=
  ⟨(C2_delete_removes_unconditionally [exampleA, exampleB] "2").2.1 exampleA
      (List.mem_cons_self exampleA [exampleB]) (by decide),
    (C2_delete_removes_unconditionally [exampleA, exampleB] "2").2.2.2⟩

/-- C3: on the first item matching the id, a decrement by `N` exceeding the
current quantity leaves the whole collection unchanged and reports the
`InvalidOperation` warning (the `st.warning` of src/app.py line 91); any
delta keeping the quantity nonnegative is applied in place and persisted. -/
theorem C3_adjust_quantity_bounds (pre post : List Item) (item : Item) (item_id : String)
    (delta N : Int) (hpre : ∀ x ∈ pre, x.id ≠ item_id) (hid : item.id = item_id) :
    (item.quantity < N →
      update_quantity_action (pre ++ item :: post) item_id (-N) =
        (pre ++ item :: post,
          { msgs := [Msg.warning ("Quantity cannot be negative.")], saved := false })) ∧
    (0 ≤ item.quantity + delta →
      update_quantity_action (pre ++ item :: post) item_id delta =
        (pre ++ { item with quantity := item.quantity + delta } :: post,
          { msgs := [], saved := true })) :=
  ⟨fun hN => update_quantity_blocked pre post item item_id (-N) hpre hid (by omega),
    fun hd => update_quantity_applies pre post item item_id delta hpre hid hd⟩

theorem C3_adjust_quantity_bounds_witness :
    update_quantity_action ([] ++ exampleA :: []) "1" (-6) =
      ([] ++ exampleA :: [],
        { msgs := [Msg.warning ("Quantity cannot be negative.")], saved := false }) ∧
    update_quantity_action ([] ++ exampleA :: []) "1" (-5) =
      ([] ++ { exampleA with quantity := exampleA.quantity + (-5) } :: [],
        { msgs := [], saved := true }) :=
  ⟨(C3_adjust_quantity_bounds [] [] exampleA "1" (-5) 6
      (fun x hx => absurd hx (List.not_mem_nil x)) rfl).1 (by decide),
    (C3_adjust_quantity_bounds [] [] exampleA "1" (-5) 6
      (fun x hx => absurd hx (List.not_mem_nil x)) rfl).2 (by decide)⟩

/-- C4 counterexample: the claim says an unknown id is reported as `NotFound`.
The code has no such branch (src/app.py lines 83-91 have no `else` for the
not-found case): the action returns with the collection unchanged, shows no
message of any kind, and does not save. -/
theorem C4_unknown_id_unreported_cex :
    update_quantity_action [exampleA] "zzz" (-1) =
      ([exampleA], { msgs := [], saved := false }) ∧
    (update_quantity_action [exampleA] "zzz" (-1)).2.msgs = [] :=
  ⟨rfl, rfl⟩

/-- C4 amended: `adjustQuantity` on an id matching no item leaves the
collection unchanged — but silently: no message (so no `NotFound` report)
is shown and no save happens. -/
theorem C4_unknown_id_silent (items : List Item) (item_id : String) (change : Int)
    (h : ∀ it ∈ items, it.id ≠ item_id) :
    update_quantity_action items item_id change = (items, { msgs := [], saved := false }) :=
  update_quantity_notfound items item_id change h

theorem C4_unknown_id_silent_witness :
    update_quantity_action [exampleA] "9" 1 = ([exampleA], { msgs := [], saved := false }) :=
  C4_unknown_id_silent [exampleA] "9" 1 (by decide)

/-- C5: with the store-assigned id (`next_id = get_next_id items`) and valid
inputs, add appends exactly one item (pre-existing items unchanged, length up
by one), the new item is found by its assigned id, and its stored price is
the given price rounded to 2 decimals. -/
theorem C5_add_valid (items : List Item) (name : String) (quantity : Int) (price : ℚ)
    (threshold : Int) (hname : name ≠ "") (hq : 0 ≤ quantity) (hp : 0 ≤ price)
    (ht : 1 ≤ threshold) :
    (add_item_action items (get_next_id items) name quantity price threshold).1 =
        items ++ [newItemOf (get_next_id items) name quantity price threshold] ∧
    (add_item_action items (get_next_id items) name quantity price threshold).1.length =
        items.length + 1 ∧
    (add_item_action items (get_next_id items) name quantity price threshold).1.find?
        (fun x => decide (x.id = pyStrInt (get_next_id items))) =
      some (newItemOf (get_next_id items) name quantity price threshold) ∧
    (newItemOf (get_next_id items) name quantity price threshold).price = round2 price := by
  refine ⟨rfl, by simp [add_item_action], ?_, rfl⟩
  show (items ++ [newItemOf (get_next_id items) name quantity price threshold]).find?
      (fun x => decide (x.id = pyStrInt (get_next_id items))) = _
  rw [find?_append_of_prefix_none _ _
    (fun x hx => by simp [get_next_id_fresh items x hx])]
  rw [List.find?_cons_of_pos _ (by simp [newItemOf])]

theorem C5_add_valid_witness :
    (add_item_action [exampleA] (get_next_id [exampleA]) ("Tea") 4 (5 / 2) 2).1 =
        [exampleA] ++ [newItemOf (get_next_id [exampleA]) ("Tea") 4 (5 / 2) 2] ∧
    (add_item_action [exampleA] (get_next_id [exampleA]) ("Tea") 4 (5 / 2) 2).1.length =
        [exampleA].length + 1 ∧
    (add_item_action [exampleA] (get_next_id [exampleA]) ("Tea") 4 (5 / 2) 2).1.find?
        (fun x => decide (x.id = pyStrInt (get_next_id [exampleA]))) =
      some (newItemOf (get_next_id [exampleA]) ("Tea") 4 (5 / 2) 2) ∧
    (newItemOf (get_next_id [exampleA]) ("Tea") 4 (5 / 2) 2).price = round2 (5 / 2) :=
  C5_add_valid [exampleA] ("Tea") 4 (5 / 2) 2 (by decide) (by decide) (by norm_num)
    (by decide)

/-- C6 counterexample: the claim says adding with `quantity < 0` (or
`threshold < 1`) is rejected with a `ValidationError`. The submit path only
checks the name; called with a non-empty name and `quantity = -1`,
`threshold = 0`, it appends the item (the collection grows) and shows a
success message, not an error. -/
theorem C6_numeric_validation_missing_cex :
    (render_add_item_form_submit [] 1 ("X") (-1) 0 0).1 = [newItemOf 1 ("X") (-1) 0 0] ∧
    ∀ m ∈ (render_add_item_form_submit [] 1 ("X") (-1) 0 0).2.2.msgs,
      m.isErrorReport = false := by
  refine ⟨rfl, ?_⟩
  intro m hm
  rcases List.mem_singleton.mp hm with rfl
  rfl

/-- C6 amended: submitting the add form with an empty name leaves the
collection unchanged and reports an error; with any non-empty name the item
is appended with no Python-side validation of quantity, price or threshold
(those are constrained only by the form widgets of src/app.py lines 110-112). -/
theorem C6_only_name_validated (items : List Item) (next_id : Int) (name : String)
    (quantity : Int) (price : ℚ) (threshold : Int) :
    (render_add_item_form_submit items next_id "" quantity price threshold =
      (items, next_id,
        { msgs := [Msg.error ("Item Name is required.")], saved := false })) ∧
    (name ≠ "" →
      (render_add_item_form_submit items next_id name quantity price threshold).1 =
        items ++ [newItemOf next_id name quantity price threshold]) := by
  constructor
  · unfold render_add_item_form_submit
    rw [if_neg (by simp)]
  · intro hname
    unfold render_add_item_form_submit
    rw [if_pos hname]
    rfl

theorem C6_only_name_validated_witness :
    (render_add_item_form_submit [] 1 "" (-1) 0 0 =
      ([], 1, { msgs := [Msg.error ("Item Name is required.")], saved := false })) ∧
    (render_add_item_form_submit [] 1 ("X") (-1) 0 0).1 = [] ++ [newItemOf 1 ("X") (-1) 0 0] :=
  ⟨(C6_only_name_validated [] 1 ("X") (-1) 0 0).1,
    (C6_only_name_validated [] 1 ("X") (-1) 0 0).2 (by decide)⟩

/-- C7 counterexample: the claim says a malformed numeric field is coerced to
its default. A record whose quantity is the non-numeric string makes
`int(...)` raise `ValueError`, which `load_items` does not catch (it only
catches `IOError` and `JSONDecodeError`): the load fails instead of
defaulting. -/
theorem C7_malformed_field_raises_cex :
    load_items (FileState.parsed [[("id", JVal.jstr "1"), ("quantity", JVal.jstr "abc")]]) =
      none := by
  decide

/-- C7 amended: `load()` returns the empty sequence when the storage file is
absent or unreadable; a MISSING numeric field is filled with its default
(quantity 0, price 0.0, threshold 1); but a malformed (unparsable) numeric
field is not coerced — the conversion raises and the whole load fails. -/
theorem C7_load_defaults (r rbad : JRecord) (rest : List JRecord) (s : String)
    (habsent : ∀ kv ∈ r, kv.1 ≠ "quantity" ∧ kv.1 ≠ "price" ∧ kv.1 ≠ "threshold")
    (hget : recGet rbad "quantity" (JVal.jint 0) = JVal.jstr s)
    (hbad : pyParseInt s = none) :
    load_items FileState.absent = some [] ∧
    load_items FileState.unreadable = some [] ∧
    coerceRecord r = some (recSet (recSet (recSet r "quantity" (JVal.jint 0))
      "price" (JVal.jfloat 0)) "threshold" (JVal.jint 1)) ∧
    load_items (FileState.parsed (rbad :: rest)) = none := by
  refine ⟨rfl, rfl, ?_, ?_⟩
  · have h1 : recGet r "quantity" (JVal.jint 0) = JVal.jint 0 :=
      recGet_of_absent r _ _ fun kv hkv => (habsent kv hkv).1
    have h2 : recGet r "price" (JVal.jfloat 0) = JVal.jfloat 0 :=
      recGet_of_absent r _ _ fun kv hkv => (habsent kv hkv).2.1
    have h3 : recGet r "threshold" (JVal.jint 1) = JVal.jint 1 :=
      recGet_of_absent r _ _ fun kv hkv => (habsent kv hkv).2.2
    unfold coerceRecord
    rw [h1, h2, h3]
    rfl
  · have hrec : coerceRecord rbad = none := by
      unfold coerceRecord
      rw [hget]
      show (match pyParseInt s with
        | none => none
        | some q =>
          match pyFloatOf (recGet rbad "price" (JVal.jfloat 0)) with
          | none => none
          | some p =>
            match pyIntOf (recGet rbad "threshold" (JVal.jint 1)) with
            | none => none
            | some t =>
              some (recSet (recSet (recSet rbad "quantity" (JVal.jint q))
                "price" (JVal.jfloat p)) "threshold" (JVal.jint t))) = none
      rw [hbad]
    show coerceAll (rbad :: rest) = none
    unfold coerceAll
    rw [hrec]

theorem C7_load_defaults_witness :
    coerceRecord [("id", JVal.jstr "7")] =
      some (recSet (recSet (recSet [("id", JVal.jstr "7")] "quantity" (JVal.jint 0))
        "price" (JVal.jfloat 0)) "threshold" (JVal.jint 1)) ∧
    load_items (FileState.parsed [[("quantity", JVal.jstr "abc")]]) = none :=
  ⟨(C7_load_defaults [("id", JVal.jstr "7")] [("quantity", JVal.jstr "abc")] [] ("abc")
      (by decide) rfl (by decide)).2.2.1,
    (C7_load_defaults [("id", JVal.jstr "7")] [("quantity", JVal.jstr "abc")] [] ("abc")
      (by decide) rfl (by decide)).2.2.2⟩

/-- C8: saving a collection of (well-typed) items and loading it back yields
an equivalent collection: the loaded records are exactly the saved ones (the
numeric coercions are the identity on them), and reading each one back as an
item recovers the original item, in the same order. -/
theorem C8_save_load_roundtrip (items : List Item) :
    load_items (save_items items) = some (items.map itemToRecord) ∧
    (items.map itemToRecord).map recordToItem? = items.map (fun it => some it) := by
  refine ⟨coerceAll_map_itemToRecord items, ?_⟩
  rw [List.map_map]
  exact List.map_congr_left fun it _ => recordToItem?_itemToRecord it

/-- C9: the data-model invariants (unique ids, nonnegative quantities,
thresholds at least 1, prices stored 2-decimal-rounded) are preserved by
every mutating operation, under the input bounds the form widgets enforce;
and the id `add` assigns — `str(get_next_id(...))`, one more than the max
int-parsing id (1 for an empty collection) — collides with no stored id. -/
theorem C9_invariants_preserved (items : List Item) (next_id : Int)
    (item_id new_name name : String) (quantity new_quantity change : Int)
    (price new_price : ℚ) (threshold new_threshold : Int) :
    (∀ it ∈ items, it.id ≠ pyStrInt (get_next_id items)) ∧
    (Wf items → FreshId items next_id → 1 ≤ next_id → 0 ≤ quantity → 1 ≤ threshold →
      Wf (add_item_action items next_id name quantity price threshold).1 ∧
      FreshId (add_item_action items next_id name quantity price threshold).1
        (next_id + 1)) ∧
    FreshId items (get_next_id items) ∧
    1 ≤ get_next_id items ∧
    (Wf items → Wf (update_quantity_action items item_id change).1) ∧
    (Wf items → 0 ≤ new_quantity → 1 ≤ new_threshold →
      Wf (edit_item_action items item_id new_name new_quantity new_price
        new_threshold).1) ∧
    (Wf items → Wf (delete_item_action items item_id).1) :=
  ⟨get_next_id_fresh items,
    fun hwf hfresh hnid hq ht =>
      ⟨wf_add items next_id name quantity price threshold hwf hfresh hnid hq ht,
        freshId_add items next_id name quantity price threshold hfresh hnid⟩,
    freshId_get_next_id items,
    get_next_id_pos items,
    fun hwf => wf_update items item_id change hwf,
    fun hwf hq ht => wf_edit items item_id new_name new_quantity new_price
      new_threshold hq ht hwf,
    fun hwf => wf_delete items item_id hwf⟩

theorem C9_invariants_preserved_witness :
    Wf (add_item_action [exampleA, exampleB] 3 ("Tea") 4 (5 / 2) 2).1 ∧
    Wf (update_quantity_action [exampleA, exampleB] "1" (-1)).1 ∧
    Wf (edit_item_action [exampleA, exampleB] "1" ("Milk") 7 (3 / 4) 2).1 ∧
    Wf (delete_item_action [exampleA, exampleB] "1").1 ∧
    (∀ it ∈ [exampleA, exampleB], it.id ≠ pyStrInt (get_next_id [exampleA, exampleB])) := by
  have h := C9_invariants_preserved [exampleA, exampleB] 3 "1" ("Milk") ("Tea") 4 7 (-1)
    (5 / 2) (3 / 4) 2 2
  exact ⟨(h.2.1 wf_examples freshId_examples (by norm_num) (by norm_num) (by norm_num)).1,
    h.2.2.2.2.1 wf_examples,
    h.2.2.2.2.2.1 wf_examples (by norm_num) (by norm_num),
    h.2.2.2.2.2.2 wf_examples,
    h.1⟩

/-- C10: deleting an id that matches no item leaves the collection unchanged,
reports no error of any kind (it even shows the usual success message), and
still persists the unchanged collection. -/
theorem C10_delete_unknown_id (items : List Item) (item_id : String)
    (h : ∀ x ∈ items, x.id ≠ item_id) :
    (delete_item_action items item_id).1 = items ∧
    (∀ m ∈ (delete_item_action items item_id).2.msgs, m.isErrorReport = false) ∧
    (delete_item_action items item_id).2.saved = true := by
  refine ⟨delete_noop_of_absent items item_id h, ?_, rfl⟩
  intro m hm
  rcases List.mem_singleton.mp hm with rfl
  rfl

theorem C10_delete_unknown_id_witness :
    (delete_item_action [exampleA] "9").1 = [exampleA] ∧
    (∀ m ∈ (delete_item_action [exampleA] "9").2.msgs, m.isErrorReport = false) ∧
    (delete_item_action [exampleA] "9").2.saved = true :=
  C10_delete_unknown_id [exampleA] "9" (by decide)

end Canteen
